import Mathlib

/-!
# Verification of the offline license issuance and activation core

Shallow embedding of the license subsystem of the repository:
* `src/server/license-generator.ts` (class `LicenseGenerator`),
* the `licensing` router of `src/server/routers.ts`,
* the license/activation store functions of `src/unnamed/part_000`
  (`createLicense`, `getLicenseByKey`, `incrementActivationCount`,
  `decrementActivationCount`, `createActivation`,
  `getActivationByHardwareId`, `deactivateActivation`, `updateLastSeen`).

The Node library primitives at the boundary (`crypto.sign` / `crypto.verify`
with RSA-PSS, `JSON.stringify` / `JSON.parse`, `Buffer` base64) are modelled
symbolically: a signature is the pair of the signing key id and the signed
message, and the base64-of-JSON serialization of a fixed-shape object is
modelled by an inductive constructor (`Bytes.ofPayload`, `SignedEnvelope`,
`B64String.enc`), so that serialization is injective, deserialization is its
partial inverse, and every other string fails structural decoding
(`B64String.malformed`).  The dash-grouping `formatLicenseKey` performs real
character-level string surgery, so it is embedded concretely on `String`.
-/

namespace AiGuidePro

/-- JS truthiness of a nullable number (`x ? a : b`): `null` and `0` are
falsy, every other number is truthy. -/
def jsTruthyOptInt : Option Int → Bool
  | none => false
  | some n => n != 0

/-- Payload signed into a license key
(`src/server/license-generator.ts` lines 34-40). -/
structure LicensePayload where
  email : String
  maxActivations : Int
  expiresAt : Option Int
  issuedAt : Int
  nonce : String
deriving DecidableEq, Repr

mutual

/-- Byte strings that flow through the signing pipeline.  `ofPayload p`
stands for the UTF-8 bytes of `JSON.stringify` of a license payload,
`ofToken t` for those of an activation-token payload, and `raw s` for any
other byte string. -/
inductive Bytes
  | ofPayload (p : LicensePayload)
  | ofToken (t : TokenPayload)
  | raw (s : String)
deriving DecidableEq

/-- Activation-token payload (`createActivationToken`, lines 152-156):
`{ licenseKey, hardwareId, activatedAt }`. -/
inductive TokenPayload
  | mk (licenseKey : B64String) (hardwareId : String) (activatedAt : Int)
deriving DecidableEq

/-- RSA-PSS signature, modelled symbolically as the pair of the signing key
id and the signed message (`crypto.sign('sha256', msg, privateKey)`). -/
inductive Sig
  | mk (key : Nat) (msg : Bytes)
deriving DecidableEq

/-- The `{ payload: base64, signature: base64 }` object that both
`generateLicenseKey` and `createActivationToken` build before the final
base64 encoding. -/
inductive SignedEnvelope
  | mk (payload : Bytes) (signature : Sig)
deriving DecidableEq

/-- A string as seen by the decoding side: either the base64-of-JSON
encoding of a signed envelope, or any other string (which
`JSON.parse(Buffer.from(s, 'base64'))` fails to decode structurally). -/
inductive B64String
  | enc (d : SignedEnvelope)
  | malformed (s : String)
deriving DecidableEq

end

/-- Sign a message with the private key
(`crypto.sign('sha256', msg, { key: privateKey, padding: PSS })`). -/
def cryptoSign (privKeyId : Nat) (msg : Bytes) : Sig :=
  Sig.mk privKeyId msg

/-- Verify a signature with the public key of the pair
(`crypto.verify('sha256', msg, { key: publicKey, padding: PSS }, sig)`):
succeeds exactly when `sig` was produced by signing `msg` with the private
key of the same pair. -/
def cryptoVerify (pubKeyId : Nat) (msg : Bytes) (sig : Sig) : Bool :=
  match sig with
  | .mk k m => k == pubKeyId && m == msg

/-- `JSON.parse` of a payload string, expected to be a license payload:
succeeds exactly on the serialization of a `LicensePayload`
(`const payload = JSON.parse(payloadString)`). -/
def parseLicensePayload : Bytes → Option LicensePayload
  | .ofPayload p => some p
  | _ => none

/-- `JSON.parse` of a data string, expected to be a token payload
(`const data = JSON.parse(dataString)` in `verifyActivationToken`). -/
def parseTokenPayload : Bytes → Option TokenPayload
  | .ofToken t => some t
  | _ => none

/-- Structural decoding of a license key / token string:
`JSON.parse(Buffer.from(s, 'base64').toString('utf-8'))` followed by the
base64 decodings of the `payload` and `signature` fields.  Succeeds exactly
on well-formed encodings; any other string throws inside the `try` block. -/
def decodeEnvelope : B64String → Option SignedEnvelope
  | .enc d => some d
  | .malformed _ => none

/-- Result record of `validateLicenseKey` and of `verifyActivationToken`:
`{ valid: boolean; payload?/data?: any; error?: string }`. -/
structure ValidationResult (α : Type) where
  valid : Bool
  payload : Option α
  error : Option String
deriving DecidableEq, Repr

/-- Payload construction of `generateLicenseKey`
(`src/server/license-generator.ts` lines 34-40).  `now` stands for
`Date.now()` and `nonce` for `crypto.randomBytes(16).toString('hex')`.
Note `expiresAt` is `null` whenever `expiresInDays` is JS-falsy, which
includes `expiresInDays === 0`. -/
def generateLicensePayload (now : Int) (nonce : String) (email : String)
    (maxActivations : Int) (expiresInDays : Option Int) : LicensePayload :=
  { email := email
    maxActivations := maxActivations
    expiresAt :=
      if jsTruthyOptInt expiresInDays then
        some (now + (expiresInDays.getD 0) * 24 * 60 * 60 * 1000)
      else none
    issuedAt := now
    nonce := nonce }

/-- Signing and envelope construction of `generateLicenseKey`
(lines 43-55): sign the serialized payload with the private key and combine
`{ payload, signature }`.  The subsequent base64 encoding of this envelope
is represented by `B64String.enc`. -/
def generateLicenseKeyData (keyId : Nat) (now : Int) (nonce : String)
    (email : String) (maxActivations : Int) (expiresInDays : Option Int) :
    SignedEnvelope :=
  let payloadBytes :=
    Bytes.ofPayload (generateLicensePayload now nonce email maxActivations expiresInDays)
  SignedEnvelope.mk payloadBytes (cryptoSign keyId payloadBytes)

/-- `validateLicenseKey` (lines 65-102), applied to the (dash-stripped)
key string: decode the envelope, verify the signature, parse the payload,
check expiry with `payload.expiresAt && Date.now() > payload.expiresAt`.
Any decoding exception yields `Invalid license key format`. -/
def validateLicenseKey (keyId : Nat) (now : Int) (licenseKey : B64String) :
    ValidationResult LicensePayload :=
  match decodeEnvelope licenseKey with
  | none => { valid := false, payload := none, error := some "Invalid license key format" }
  | some d =>
    match d with
    | .mk payloadBytes signature =>
      if cryptoVerify keyId payloadBytes signature then
        match parseLicensePayload payloadBytes with
        | none =>
          { valid := false, payload := none, error := some "Invalid license key format" }
        | some payload =>
          if jsTruthyOptInt payload.expiresAt && decide (now > payload.expiresAt.getD 0) then
            { valid := false, payload := none, error := some "License expired" }
          else
            { valid := true, payload := some payload, error := none }
      else
        { valid := false, payload := none, error := some "Invalid signature" }

/-- `createActivationToken` (lines 150-167): sign
`{ licenseKey, hardwareId, activatedAt }` and encode `{ data, signature }`. -/
def createActivationToken (keyId : Nat) (now : Int) (licenseKey : B64String)
    (hardwareId : String) : B64String :=
  let dataBytes := Bytes.ofToken (TokenPayload.mk licenseKey hardwareId now)
  B64String.enc (SignedEnvelope.mk dataBytes (cryptoSign keyId dataBytes))

/-- `verifyActivationToken` (lines 172-195): decode the envelope, verify the
signature, parse the data; any decoding exception yields
`Invalid token format`. -/
def verifyActivationToken (keyId : Nat) (token : B64String) :
    ValidationResult TokenPayload :=
  match decodeEnvelope token with
  | none => { valid := false, payload := none, error := some "Invalid token format" }
  | some d =>
    match d with
    | .mk dataBytes signature =>
      if cryptoVerify keyId dataBytes signature then
        match parseTokenPayload dataBytes with
        | none => { valid := false, payload := none, error := some "Invalid token format" }
        | some data =>
          { valid := true, payload := some data, error := none }
      else
        { valid := false, payload := none, error := some "Invalid activation token" }

/-! ## The concrete display formatting (`formatLicenseKey`, lines 107-115)

`formatLicenseKey` operates on the actual base64 text, so it is embedded
concretely on `String`. -/

/-- One step of `key.replace(/[^A-Z0-9]/gi, '').toUpperCase()`: keep only
ASCII alphanumeric characters, uppercased. -/
def keepAlnumUpper (l : List Char) : List Char :=
  (l.filter fun c => c.isAlpha || c.isDigit).map Char.toUpper

/-- Loop body of the 5-character grouping, written with explicit fuel so
that it is structurally recursive; `chunks5` supplies `l.length` as fuel,
which always suffices since each step consumes at least one character. -/
def chunks5Go : Nat → List Char → List (List Char)
  | _, [] => []
  | 0, _ :: _ => []
  | fuel + 1, c :: cs => (c :: cs).take 5 :: chunks5Go fuel ((c :: cs).drop 5)

/-- Split a character list into blocks of 5
(`for (let i = 0; i < cleaned.length; i += 5) parts.push(...)`). -/
def chunks5 (l : List Char) : List (List Char) :=
  chunks5Go l.length l

/-- `parts.join('-')`. -/
def joinDash : List (List Char) → List Char
  | [] => []
  | [p] => p
  | p :: ps => p ++ '-' :: joinDash ps

/-- `formatLicenseKey` (lines 107-115): strip every non-alphanumeric
character, uppercase, keep only the FIRST 20 characters, and regroup as
`XXXXX-XXXXX-XXXXX-XXXXX`. -/
def formatLicenseKey (key : String) : String :=
  let cleaned := (keepAlnumUpper key.toList).take 20
  String.mk (joinDash (chunks5 cleaned))

/-- The dash stripping performed at the start of `validateLicenseKey`
(line 70: replace every dash with the empty string). -/
def stripDashes (s : String) : String :=
  String.mk (s.toList.filter fun c => c != '-')

/-! ## Persistent license store (`src/unnamed/part_000`)

The drizzle tables `licenses` and `activations` are modelled as lists of
records; auto-increment primary keys are modelled by `nextLicenseId` /
`nextActivationId` counters. -/

inductive LicenseStatus
  | active
  | expired
  | revoked
deriving DecidableEq, Repr

/-- `'License is ' + license.status` rendering of the status enum. -/
def LicenseStatus.text : LicenseStatus → String
  | .active => "active"
  | .expired => "expired"
  | .revoked => "revoked"

inductive ActivationStatus
  | active
  | deactivated
deriving DecidableEq, Repr

/-- A row of the `licenses` table. -/
structure License where
  id : Nat
  licenseKey : B64String
  email : String
  purchaseId : Option String
  maxActivations : Int
  currentActivations : Int
  expiresAt : Option Int
  status : LicenseStatus
deriving DecidableEq

/-- A row of the `activations` table. -/
structure Activation where
  id : Nat
  licenseId : Nat
  hardwareId : String
  machineName : Option String
  os : Option String
  status : ActivationStatus
  activatedAt : Int
  lastSeenAt : Int
deriving DecidableEq

/-- The persistent store visible to the licensing router. -/
structure Store where
  licenses : List License
  activations : List Activation
  nextLicenseId : Nat
  nextActivationId : Nat
deriving DecidableEq

/-- `createLicense` (part_000 lines 281-287): insert a new license row. -/
def createLicense (s : Store) (licenseKey : B64String) (email : String)
    (purchaseId : Option String) (maxActivations : Int)
    (currentActivations : Int) (expiresAt : Option Int)
    (status : LicenseStatus) : Store :=
  { s with
    licenses := s.licenses ++
      [{ id := s.nextLicenseId
         licenseKey := licenseKey
         email := email
         purchaseId := purchaseId
         maxActivations := maxActivations
         currentActivations := currentActivations
         expiresAt := expiresAt
         status := status }]
    nextLicenseId := s.nextLicenseId + 1 }

/-- `getLicenseByKey` (lines 289-295): first row with the given key,
`null` when absent. -/
def getLicenseByKey (s : Store) (licenseKey : B64String) : Option License :=
  s.licenses.find? fun lic => lic.licenseKey == licenseKey

/-- `incrementActivationCount` (lines 313-323): UNCONDITIONAL update
`SET currentActivations = currentActivations + 1 WHERE id = licenseId`
(no guard against exceeding `maxActivations`). -/
def incrementActivationCount (s : Store) (licenseId : Nat) : Store :=
  { s with
    licenses := s.licenses.map fun lic =>
      if lic.id == licenseId then
        { lic with currentActivations := lic.currentActivations + 1 }
      else lic }

/-- `decrementActivationCount` (lines 325-335): UNCONDITIONAL update
`SET currentActivations = currentActivations - 1 WHERE id = licenseId`
(no floor at 0). -/
def decrementActivationCount (s : Store) (licenseId : Nat) : Store :=
  { s with
    licenses := s.licenses.map fun lic =>
      if lic.id == licenseId then
        { lic with currentActivations := lic.currentActivations - 1 }
      else lic }

/-- `createActivation` (lines 339-344): insert a new activation row. -/
def createActivation (s : Store) (licenseId : Nat) (hardwareId : String)
    (machineName : Option String) (os : Option String)
    (status : ActivationStatus) (now : Int) : Store :=
  { s with
    activations := s.activations ++
      [{ id := s.nextActivationId
         licenseId := licenseId
         hardwareId := hardwareId
         machineName := machineName
         os := os
         status := status
         activatedAt := now
         lastSeenAt := now }]
    nextActivationId := s.nextActivationId + 1 }

/-- Row predicate of the drizzle `where` clause of
`getActivationByHardwareId`: the activation belongs to the license, is for
the given hardware id, and has status `active`. -/
def isActivePair (licenseId : Nat) (hardwareId : String) (a : Activation) : Bool :=
  a.licenseId == licenseId && a.hardwareId == hardwareId &&
    a.status == ActivationStatus.active

/-- `getActivationByHardwareId` (lines 358-371): first activation row with
the given license id and hardware id whose status is `active`. -/
def getActivationByHardwareId (s : Store) (licenseId : Nat)
    (hardwareId : String) : Option Activation :=
  s.activations.find? (isActivePair licenseId hardwareId)

/-- `deactivateActivation` (lines 373-380): set the status of the given
activation row to `deactivated`. -/
def deactivateActivation (s : Store) (activationId : Nat) : Store :=
  { s with
    activations := s.activations.map fun a =>
      if a.id == activationId then { a with status := ActivationStatus.deactivated }
      else a }

/-- `updateLastSeen` (lines 382-389): set `lastSeenAt` of the given
activation row to the current time. -/
def updateLastSeen (s : Store) (activationId : Nat) (now : Int) : Store :=
  { s with
    activations := s.activations.map fun a =>
      if a.id == activationId then { a with lastSeenAt := now } else a }

/-! ## The licensing router (`src/server/routers.ts`, `licensing`) -/

/-- Result of `licensing.activate`: either a thrown `Error(msg)` or the
returned `{ success: true, alreadyActivated, activationToken? }`. -/
inductive ActivateResult
  | thrown (msg : String)
  | success (alreadyActivated : Bool) (activationToken : Option B64String)
deriving DecidableEq

/-- Result of `licensing.deactivate`. -/
inductive DeactivateResult
  | thrown (msg : String)
  | success
deriving DecidableEq

/-- `licensing.generate` (routers.ts lines 280-308): generate a license key
string with `generateLicenseKey` and persist the license row with
`currentActivations = 0` and `status = 'active'`; `expiresAt` repeats the
JS-truthiness test on `expiresInDays`.  `generatedKey` stands for the
string returned by `generateLicenseKey` (the dash-formatted, truncated
key, which no longer decodes — see `formatLicenseKey`). -/
def licensingGenerate (s : Store) (generatedKey : B64String) (now : Int)
    (email : String) (maxActivations : Int) (expiresInDays : Option Int)
    (purchaseId : Option String) : B64String × Store :=
  let s2 := createLicense s generatedKey email purchaseId maxActivations 0
    (if jsTruthyOptInt expiresInDays then
       some (now + (expiresInDays.getD 0) * 24 * 60 * 60 * 1000)
     else none)
    LicenseStatus.active
  (generatedKey, s2)

/-- `licensing.activate` (routers.ts lines 344-399).  Note that the handler
performs NO cryptographic validation of `licenseKey`: it starts directly
with the store lookup `getLicenseByKey`. -/
def licensingActivate (keyId : Nat) (now : Int) (s : Store)
    (licenseKey : B64String) (hardwareId : String)
    (machineName : Option String) (os : Option String) :
    ActivateResult × Store :=
  match getLicenseByKey s licenseKey with
  | none => (ActivateResult.thrown "License not found", s)
  | some license =>
    if license.status != LicenseStatus.active then
      (ActivateResult.thrown ("License is " ++ license.status.text), s)
    else
      match getActivationByHardwareId s license.id hardwareId with
      | some existingActivation =>
        (ActivateResult.success true none, updateLastSeen s existingActivation.id now)
      | none =>
        if license.currentActivations ≥ license.maxActivations then
          (ActivateResult.thrown "Maximum activations reached", s)
        else
          let s2 := createActivation s license.id hardwareId machineName os
            ActivationStatus.active now
          let s3 := incrementActivationCount s2 license.id
          (ActivateResult.success false
            (some (createActivationToken keyId now licenseKey hardwareId)), s3)

/-- `licensing.deactivate` (routers.ts lines 402-426). -/
def licensingDeactivate (s : Store) (licenseKey : B64String)
    (hardwareId : String) : DeactivateResult × Store :=
  match getLicenseByKey s licenseKey with
  | none => (DeactivateResult.thrown "License not found", s)
  | some license =>
    match getActivationByHardwareId s license.id hardwareId with
    | none => (DeactivateResult.thrown "Activation not found", s)
    | some activation =>
      let s2 := deactivateActivation s activation.id
      let s3 := decrementActivationCount s2 license.id
      (DeactivateResult.success, s3)

/-! ## State invariants of the data model (spec section 3) -/

/-- Activation row is an `active` record of the given license. -/
def isActiveFor (licenseId : Nat) (a : Activation) : Bool :=
  a.licenseId == licenseId && a.status == ActivationStatus.active

/-- Number of activation records in `active` state for the given license. -/
def countActive (s : Store) (licenseId : Nat) : Nat :=
  s.activations.countP (isActiveFor licenseId)

/-- Number of `active` activation records for one `(licenseId, hardwareId)`
pair. -/
def pairActiveCount (s : Store) (licenseId : Nat) (hardwareId : String) : Nat :=
  s.activations.countP (isActivePair licenseId hardwareId)

/-- Structural well-formedness of the store: primary keys are distinct and
below the auto-increment counters, and activations reference already
allocated license ids. -/
structure WF (s : Store) : Prop where
  licIds : s.licenses.Pairwise fun a b => a.id ≠ b.id
  actIds : s.activations.Pairwise fun a b => a.id ≠ b.id
  licFresh : ∀ lic ∈ s.licenses, lic.id < s.nextLicenseId
  actFresh : ∀ a ∈ s.activations, a.id < s.nextActivationId
  actLicRef : ∀ a ∈ s.activations, a.licenseId < s.nextLicenseId

/-- The activation-count invariant of the spec data model:
`0 ≤ currentActivations ≤ maxActivations`, and `currentActivations` equals
the number of activation records in `active` state for the license. -/
def CountInv (s : Store) : Prop :=
  ∀ lic ∈ s.licenses,
    0 ≤ lic.currentActivations ∧ lic.currentActivations ≤ lic.maxActivations ∧
      lic.currentActivations = (countActive s lic.id : Int)

/-- At most one `active` activation record per `(licenseId, hardwareId)`
pair. -/
def PairInv (s : Store) : Prop :=
  ∀ licenseId hardwareId, pairActiveCount s licenseId hardwareId ≤ 1

/-! ## Generic counting helpers -/

/-- Two rows of a keyed table with the same key are the same row. -/
theorem eq_of_key_eq {α : Type} (key : α → Nat) (l : List α)
    (h : l.Pairwise fun a b => key a ≠ key b) (a b : α)
    (ha : a ∈ l) (hb : b ∈ l) (hk : key a = key b) : a = b := by
  induction l with
  | nil => cases ha
  | cons x xs ih =>
    rcases List.pairwise_cons.mp h with ⟨hx, hxs⟩
    rcases List.mem_cons.mp ha with rfl | ha2
    · rcases List.mem_cons.mp hb with rfl | hb2
      · rfl
      · exact absurd hk (hx b hb2)
    · rcases List.mem_cons.mp hb with rfl | hb2
      · exact absurd hk.symm (hx a ha2)
      · exact ih hxs ha2 hb2

/-- Counting after an update that touches only the row with key `aid`. -/
theorem countP_map_keyed_update {α : Type} (key : α → Nat) (p : α → Bool)
    (f : α → α) (aid : Nat) (l : List α)
    (hids : l.Pairwise fun a b => key a ≠ key b) (a : α) (ha : a ∈ l)
    (haid : key a = aid) :
    (l.map fun x => if key x == aid then f x else x).countP p
        + (if p a then 1 else 0)
      = l.countP p + (if p (f a) then 1 else 0) := by
  rcases List.append_of_mem ha with ⟨l1, l2, rfl⟩
  have h1 : ∀ b ∈ l1, key b ≠ aid := by
    intro b hb
    have := (List.pairwise_append.mp hids).2.2 b hb a (List.mem_cons_self a l2)
    omega
  have h2 : ∀ b ∈ l2, key b ≠ aid := by
    intro b hb
    have := (List.pairwise_cons.mp (List.pairwise_append.mp hids).2.1).1 b hb
    omega
  have hmap : ∀ (m : List α), (∀ b ∈ m, key b ≠ aid) →
      m.map (fun x => if key x == aid then f x else x) = m := by
    intro m hm
    induction m with
    | nil => rfl
    | cons x xs ih =>
      have hx : key x ≠ aid := hm x (List.mem_cons_self x xs)
      have hxs := ih fun b hb => hm b (List.mem_cons_of_mem x hb)
      simp only [List.map_cons, hxs]
      rw [if_neg (by simpa using hx)]
  have emap : (l1 ++ a :: l2).map (fun x => if key x == aid then f x else x)
      = l1 ++ f a :: l2 := by
    rw [List.map_append, List.map_cons, hmap l1 h1, hmap l2 h2, if_pos (by simpa using haid)]
  rw [emap]
  simp only [List.countP_append, List.countP_cons]
  by_cases hpa : p a <;> by_cases hpfa : p (f a) <;> simp [hpa, hpfa] <;> omega

/-! ## Behaviour of the store operations on the counters -/

theorem countActive_increment (s : Store) (licId i : Nat) :
    countActive (incrementActivationCount s licId) i = countActive s i := rfl

theorem countActive_decrement (s : Store) (licId i : Nat) :
    countActive (decrementActivationCount s licId) i = countActive s i := rfl

theorem pairActiveCount_increment (s : Store) (licId i : Nat) (hw : String) :
    pairActiveCount (incrementActivationCount s licId) i hw = pairActiveCount s i hw := rfl

theorem countActive_createActivation (s : Store) (licId : Nat) (hw : String)
    (mn os : Option String) (st : ActivationStatus) (now : Int) (i : Nat) :
    countActive (createActivation s licId hw mn os st now) i
      = countActive s i
        + (if licId == i && st == ActivationStatus.active then 1 else 0) := by
  unfold countActive createActivation
  simp only [List.countP_append, List.countP_cons, List.countP_nil, isActiveFor]
  omega

theorem pairActiveCount_createActivation (s : Store) (licId : Nat) (hw : String)
    (mn os : Option String) (st : ActivationStatus) (now : Int) (i : Nat)
    (h : String) :
    pairActiveCount (createActivation s licId hw mn os st now) i h
      = pairActiveCount s i h
        + (if licId == i && hw == h && st == ActivationStatus.active then 1 else 0) := by
  unfold pairActiveCount createActivation
  simp only [List.countP_append, List.countP_cons, List.countP_nil, isActivePair]
  omega

theorem countActive_updateLastSeen (s : Store) (aid : Nat) (now : Int) (i : Nat) :
    countActive (updateLastSeen s aid now) i = countActive s i := by
  unfold countActive updateLastSeen
  simp only [List.countP_map]
  apply List.countP_congr
  intro a _
  by_cases h : a.id = aid <;> simp [isActiveFor, h]

theorem pairActiveCount_updateLastSeen (s : Store) (aid : Nat) (now : Int)
    (i : Nat) (h : String) :
    pairActiveCount (updateLastSeen s aid now) i h = pairActiveCount s i h := by
  unfold pairActiveCount updateLastSeen
  simp only [List.countP_map]
  apply List.countP_congr
  intro a _
  by_cases hc : a.id = aid <;> simp [isActivePair, hc]

/-- Effect of `deactivateActivation` on the per-license active count, when
the store has distinct activation ids and the target row `a` is in it. -/
theorem countActive_deactivateActivation (s : Store) (a : Activation)
    (hids : s.activations.Pairwise fun x y => x.id ≠ y.id)
    (ha : a ∈ s.activations) (i : Nat) :
    countActive (deactivateActivation s a.id) i
        + (if isActiveFor i a then 1 else 0)
      = countActive s i
        + (if isActiveFor i { a with status := ActivationStatus.deactivated }
           then 1 else 0) := by
  unfold countActive deactivateActivation
  exact countP_map_keyed_update (fun x => x.id) (isActiveFor i)
    (fun x => { x with status := ActivationStatus.deactivated }) a.id
    s.activations hids a ha rfl

/-- Effect of `deactivateActivation` on the per-pair active count. -/
theorem pairActiveCount_deactivateActivation (s : Store) (a : Activation)
    (hids : s.activations.Pairwise fun x y => x.id ≠ y.id)
    (ha : a ∈ s.activations) (i : Nat) (h : String) :
    pairActiveCount (deactivateActivation s a.id) i h
        + (if isActivePair i h a then 1 else 0)
      = pairActiveCount s i h
        + (if isActivePair i h { a with status := ActivationStatus.deactivated }
           then 1 else 0) := by
  unfold pairActiveCount deactivateActivation
  exact countP_map_keyed_update (fun x => x.id) (isActivePair i h)
    (fun x => { x with status := ActivationStatus.deactivated }) a.id
    s.activations hids a ha rfl

/-- A deactivated row never counts as active. -/
theorem isActiveFor_deactivated (i : Nat) (a : Activation) :
    isActiveFor i { a with status := ActivationStatus.deactivated } = false := by
  simp [isActiveFor]

theorem isActivePair_deactivated (i : Nat) (h : String) (a : Activation) :
    isActivePair i h { a with status := ActivationStatus.deactivated } = false := by
  simp [isActivePair]

/-- `getLicenseByKey` after an increment: the same row is found, with its
counter bumped when its id matches. -/
theorem getLicenseByKey_increment (s : Store) (licId : Nat) (k : B64String) :
    getLicenseByKey (incrementActivationCount s licId) k
      = (getLicenseByKey s k).map fun lic =>
          if lic.id == licId then
            { lic with currentActivations := lic.currentActivations + 1 }
          else lic := by
  unfold getLicenseByKey incrementActivationCount
  rw [List.find?_map]
  have hp : ((fun lic : License => lic.licenseKey == k) ∘ fun lic =>
        if lic.id == licId then
          { lic with currentActivations := lic.currentActivations + 1 }
        else lic)
      = fun lic : License => lic.licenseKey == k := by
    funext lic
    by_cases h : lic.id = licId <;> simp [Function.comp, h]
  rw [hp]

/-- Lookups of licenses are unaffected by activation-table updates. -/
theorem getLicenseByKey_createActivation (s : Store) (licId : Nat)
    (hw : String) (mn os : Option String) (st : ActivationStatus) (now : Int)
    (k : B64String) :
    getLicenseByKey (createActivation s licId hw mn os st now) k
      = getLicenseByKey s k := rfl

theorem getLicenseByKey_updateLastSeen (s : Store) (aid : Nat) (now : Int)
    (k : B64String) :
    getLicenseByKey (updateLastSeen s aid now) k = getLicenseByKey s k := rfl

theorem getLicenseByKey_deactivateActivation (s : Store) (aid : Nat)
    (k : B64String) :
    getLicenseByKey (deactivateActivation s aid) k = getLicenseByKey s k := rfl

/-! ## Accessors for the envelope components -/

def SignedEnvelope.payload : SignedEnvelope → Bytes
  | .mk p _ => p

def SignedEnvelope.signature : SignedEnvelope → Sig
  | .mk _ s => s

/-! ## Claim theorems -/

/-- C10: for every input, `validateLicenseKey` and `verifyActivationToken`
are total (the embedding is case-complete over every input constructor,
mirroring the try/catch that converts every decoding exception into a
result object); a `valid = false` result always carries an error message
and a `valid = true` result always carries the decoded payload. -/
theorem validators_total_and_shaped (keyId : Nat) (now : Int) (k t : B64String) :
    ((validateLicenseKey keyId now k).valid = true →
        ∃ p, (validateLicenseKey keyId now k).payload = some p) ∧
    ((validateLicenseKey keyId now k).valid = false →
        ∃ e, (validateLicenseKey keyId now k).error = some e) ∧
    ((verifyActivationToken keyId t).valid = true →
        ∃ d, (verifyActivationToken keyId t).payload = some d) ∧
    ((verifyActivationToken keyId t).valid = false →
        ∃ e, (verifyActivationToken keyId t).error = some e) := by
  have hv : ∀ k2 : B64String,
      ((validateLicenseKey keyId now k2).valid = true →
        ∃ p, (validateLicenseKey keyId now k2).payload = some p) ∧
      ((validateLicenseKey keyId now k2).valid = false →
        ∃ e, (validateLicenseKey keyId now k2).error = some e) := by
    intro k2
    cases k2 with
    | malformed s => simp [validateLicenseKey, decodeEnvelope]
    | enc d =>
      cases d with
      | mk pb sg =>
        by_cases hcv : cryptoVerify keyId pb sg = true
        · cases hp : parseLicensePayload pb with
          | none => simp [validateLicenseKey, decodeEnvelope, hcv, hp]
          | some p =>
            by_cases hex :
                (jsTruthyOptInt p.expiresAt && decide (now > p.expiresAt.getD 0)) = true
            · simp [validateLicenseKey, decodeEnvelope, hcv, hp, hex]
            · simp [validateLicenseKey, decodeEnvelope, hcv, hp,
                Bool.not_eq_true (jsTruthyOptInt p.expiresAt && decide (now > p.expiresAt.getD 0)) ▸ hex]
        · simp [validateLicenseKey, decodeEnvelope, hcv]
  have ht : ∀ t2 : B64String,
      ((verifyActivationToken keyId t2).valid = true →
        ∃ d, (verifyActivationToken keyId t2).payload = some d) ∧
      ((verifyActivationToken keyId t2).valid = false →
        ∃ e, (verifyActivationToken keyId t2).error = some e) := by
    intro t2
    cases t2 with
    | malformed s => simp [verifyActivationToken, decodeEnvelope]
    | enc d =>
      cases d with
      | mk db sg =>
        by_cases hcv : cryptoVerify keyId db sg = true
        · cases hp : parseTokenPayload db with
          | none => simp [verifyActivationToken, decodeEnvelope, hcv, hp]
          | some p => simp [verifyActivationToken, decodeEnvelope, hcv, hp]
        · simp [verifyActivationToken, decodeEnvelope, hcv]
  exact ⟨(hv k).1, (hv k).2, (ht t).1, (ht t).2⟩

/-- C10 witness: the theorem applied at concrete inputs, exercising both a
`valid = true` and a `valid = false` evaluation for each validator. -/
theorem validators_total_and_shaped_witness :
    (∃ p, (validateLicenseKey 0 0
      (B64String.enc (generateLicenseKeyData 0 0 "n" "a@example.com" 1 none))).payload
        = some p) ∧
    (∃ e, (validateLicenseKey 0 0 (B64String.malformed "junk")).error = some e) ∧
    (∃ d, (verifyActivationToken 0
      (createActivationToken 0 0 (B64String.malformed "K") "H1")).payload = some d) ∧
    (∃ e, (verifyActivationToken 0 (B64String.malformed "junk")).error = some e) :=
  ⟨(validators_total_and_shaped 0 0
      (B64String.enc (generateLicenseKeyData 0 0 "n" "a@example.com" 1 none))
      (createActivationToken 0 0 (B64String.malformed "K") "H1")).1 (by decide),
   (validators_total_and_shaped 0 0 (B64String.malformed "junk")
      (B64String.malformed "junk")).2.1 (by decide),
   (validators_total_and_shaped 0 0
      (B64String.enc (generateLicenseKeyData 0 0 "n" "a@example.com" 1 none))
      (createActivationToken 0 0 (B64String.malformed "K") "H1")).2.2.1 (by decide),
   (validators_total_and_shaped 0 0 (B64String.malformed "junk")
      (B64String.malformed "junk")).2.2.2 (by decide)⟩

/-- C8: tamper detection (under the symbolic signature model).  Altering
the payload of an issued key while keeping its signature, or altering the
signature while keeping the payload, always yields the distinct
signature-mismatch error `Invalid signature`, never the decoding error
`Invalid license key format`; an input that breaks structural decoding
yields `Invalid license key format`; and the two failure kinds are distinct
result values. -/
theorem tampered_key_fails_with_signature_error (keyId : Nat) (now checkTime : Int)
    (nonce email : String) (maxActivations : Int) (expiresInDays : Option Int)
    (p2 : Bytes) (s2 : Sig)
    (htamper :
      (p2 ≠ (generateLicenseKeyData keyId now nonce email maxActivations expiresInDays).payload ∧
        s2 = (generateLicenseKeyData keyId now nonce email maxActivations expiresInDays).signature) ∨
      (p2 = (generateLicenseKeyData keyId now nonce email maxActivations expiresInDays).payload ∧
        s2 ≠ (generateLicenseKeyData keyId now nonce email maxActivations expiresInDays).signature)) :
    validateLicenseKey keyId checkTime (B64String.enc (SignedEnvelope.mk p2 s2))
        = { valid := false, payload := none, error := some "Invalid signature" } ∧
    (∀ s3 : String, validateLicenseKey keyId checkTime (B64String.malformed s3)
        = { valid := false, payload := none, error := some "Invalid license key format" }) ∧
    some "Invalid signature" ≠ some "Invalid license key format" := by
  refine ⟨?_, fun s3 => rfl, by decide⟩
  have hsig : (generateLicenseKeyData keyId now nonce email maxActivations expiresInDays).signature
      = Sig.mk keyId
        (generateLicenseKeyData keyId now nonce email maxActivations expiresInDays).payload := rfl
  have hverify : cryptoVerify keyId p2 s2 = false := by
    rcases htamper with ⟨hp, hs⟩ | ⟨hp, hs⟩
    · rw [hs, hsig]
      simp only [cryptoVerify, beq_self_eq_true, Bool.true_and, beq_eq_false_iff_ne, ne_eq]
      exact fun h => hp h.symm
    · rw [hsig] at hs
      cases s2 with
      | mk sk sm =>
        by_cases hk : sk = keyId
        · by_cases hm : sm = p2
          · exact absurd (by rw [hk, hm, hp]) hs
          · simp [cryptoVerify, hm]
        · simp [cryptoVerify, hk]
  simp [validateLicenseKey, decodeEnvelope, hverify]

/-- C8 witness: a concrete tampering of a concrete issued key. -/
theorem tampered_key_fails_with_signature_error_witness :
    validateLicenseKey 0 5 (B64String.enc (SignedEnvelope.mk (Bytes.raw "flipped")
        (generateLicenseKeyData 0 0 "n" "a@example.com" 1 none).signature))
      = { valid := false, payload := none, error := some "Invalid signature" } :=
  (tampered_key_fails_with_signature_error 0 0 5 "n" "a@example.com" 1 none
    (Bytes.raw "flipped")
    (generateLicenseKeyData 0 0 "n" "a@example.com" 1 none).signature
    (Or.inl ⟨by decide, rfl⟩)).1

/-- C5 counterexample: a license issued at instant 0 with a 0-day expiry
duration, checked at instant 1 (after issuance), is NOT reported expired:
`expiresInDays = 0` is JS-falsy, so the payload gets `expiresAt = null` and
validation returns `valid = true`. -/
theorem zero_day_expiry_counterexample :
    validateLicenseKey 0 1
        (B64String.enc (generateLicenseKeyData 0 0 "n" "a@example.com" 1 (some 0)))
      = { valid := true,
          payload := some (generateLicensePayload 0 "n" "a@example.com" 1 (some 0)),
          error := none } ∧
    (generateLicensePayload 0 "n" "a@example.com" 1 (some 0)).expiresAt = none := by
  decide

/-- C5 (amended): a license issued with a 0-day expiry duration is treated
exactly like one issued with no expiry duration — its payload carries
`expiresAt = null` — and in both cases validation at every instant returns
`valid = true` and never reports `License expired`. -/
theorem zero_day_and_no_expiry_never_expired (keyId : Nat)
    (issuedAt checkTime : Int) (nonce email : String) (maxActivations : Int) :
    (generateLicensePayload issuedAt nonce email maxActivations (some 0)).expiresAt = none ∧
    (validateLicenseKey keyId checkTime
        (B64String.enc (generateLicenseKeyData keyId issuedAt nonce email maxActivations (some 0)))).valid
      = true ∧
    (validateLicenseKey keyId checkTime
        (B64String.enc (generateLicenseKeyData keyId issuedAt nonce email maxActivations none))).valid
      = true := by
  refine ⟨by simp [generateLicensePayload, jsTruthyOptInt], ?_, ?_⟩ <;>
    simp [validateLicenseKey, decodeEnvelope, generateLicenseKeyData, cryptoSign,
      cryptoVerify, parseLicensePayload, generateLicensePayload, jsTruthyOptInt]

/-- The empty store (fresh database). -/
def emptyStore : Store :=
  { licenses := [], activations := [], nextLicenseId := 0, nextActivationId := 0 }

/-- C7 counterexample: issuing with `maxActivations = 0` (which is `< 1`)
does NOT fail: `generateLicenseKey` has no check on `maxActivations` and
produces a correctly signed payload, and `licensing.generate` persists the
license row.  This refutes "issuance fails if and only if
`maxActivations < 1`". -/
theorem issuance_with_zero_max_succeeds :
    cryptoVerify 0 (generateLicenseKeyData 0 0 "n" "a@example.com" 0 none).payload
        (generateLicenseKeyData 0 0 "n" "a@example.com" 0 none).signature = true ∧
    (licensingGenerate emptyStore (B64String.malformed "FORMATTED-KEY") 0
        "a@example.com" 0 none none).2.licenses
      = [{ id := 0, licenseKey := B64String.malformed "FORMATTED-KEY",
           email := "a@example.com", purchaseId := none, maxActivations := 0,
           currentActivations := 0, expiresAt := none,
           status := LicenseStatus.active }] := by
  decide

/-- C7 (amended): issuance never fails, for every input: `generateLicenseKey`
performs no check on `maxActivations` (values below 1 included) and always
produces an envelope whose signature verifies, and `licensing.generate`
always returns the key and appends exactly one license row with
`currentActivations = 0` and status `active`. -/
theorem issuance_total (s : Store) (generatedKey : B64String) (keyId : Nat)
    (now : Int) (nonce email : String) (maxActivations : Int)
    (expiresInDays : Option Int) (purchaseId : Option String) :
    (licensingGenerate s generatedKey now email maxActivations expiresInDays
        purchaseId).1 = generatedKey ∧
    (licensingGenerate s generatedKey now email maxActivations expiresInDays
        purchaseId).2.licenses
      = s.licenses ++
        [{ id := s.nextLicenseId, licenseKey := generatedKey, email := email,
           purchaseId := purchaseId, maxActivations := maxActivations,
           currentActivations := 0,
           expiresAt :=
             if jsTruthyOptInt expiresInDays then
               some (now + (expiresInDays.getD 0) * 24 * 60 * 60 * 1000)
             else none,
           status := LicenseStatus.active }] ∧
    cryptoVerify keyId
        (generateLicenseKeyData keyId now nonce email maxActivations expiresInDays).payload
        (generateLicenseKeyData keyId now nonce email maxActivations expiresInDays).signature
      = true := by
  refine ⟨rfl, rfl, ?_⟩
  simp [generateLicenseKeyData, cryptoSign, cryptoVerify, SignedEnvelope.payload,
    SignedEnvelope.signature]

/-- C9: each of `licensing.activate` and `licensing.deactivate`, whenever
THAT call returns a failure (a thrown error), leaves the store completely
unchanged: no activation record is created or changed and no counter moves.
The two implications are independent, one per call.  (The
`alreadyActivated` outcome is a success variant and is not covered by
either hypothesis.) -/
theorem failed_calls_do_not_mutate (keyId : Nat) (now : Int) (s : Store)
    (k : B64String) (hw : String) (mn os : Option String) :
    (∀ msg : String,
      (licensingActivate keyId now s k hw mn os).1 = ActivateResult.thrown msg →
      (licensingActivate keyId now s k hw mn os).2 = s) ∧
    (∀ msg : String,
      (licensingDeactivate s k hw).1 = DeactivateResult.thrown msg →
      (licensingDeactivate s k hw).2 = s) := by
  constructor
  · intro msg hact
    unfold licensingActivate at hact ⊢
    cases hfind : getLicenseByKey s k with
    | none => simp [hfind]
    | some lic =>
      simp only [hfind] at hact ⊢
      by_cases hst : lic.status != LicenseStatus.active
      · simp [hst]
      · simp only [hst, Bool.false_eq_true, if_false] at hact ⊢
        cases hexist : getActivationByHardwareId s lic.id hw with
        | some act => simp [hexist] at hact
        | none =>
          simp only [hexist] at hact ⊢
          by_cases hcap : lic.currentActivations ≥ lic.maxActivations
          · simp [hcap]
          · simp [hcap] at hact
  · intro msg hdeact
    unfold licensingDeactivate at hdeact ⊢
    cases hfind : getLicenseByKey s k with
    | none => simp [hfind]
    | some lic =>
      simp only [hfind] at hdeact ⊢
      cases hexist : getActivationByHardwareId s lic.id hw with
      | some act => simp [hexist] at hdeact
      | none => simp [hexist]

/-- A one-seat license store used to exercise the activation flows. -/
def demoStore : Store :=
  { licenses := [{ id := 0, licenseKey := B64String.malformed "K",
                   email := "a@example.com", purchaseId := none,
                   maxActivations := 1, currentActivations := 0,
                   expiresAt := none, status := LicenseStatus.active }],
    activations := [], nextLicenseId := 1, nextActivationId := 0 }

/-- A store holding a revoked one-seat license that still has an active
activation for hardware `H1`. -/
def revokedStore : Store :=
  { licenses := [{ id := 0, licenseKey := B64String.malformed "K",
                   email := "a@example.com", purchaseId := none,
                   maxActivations := 1, currentActivations := 1,
                   expiresAt := none, status := LicenseStatus.revoked }],
    activations := [{ id := 0, licenseId := 0, hardwareId := "H1",
                      machineName := none, os := none,
                      status := ActivationStatus.active,
                      activatedAt := 0, lastSeenAt := 0 }],
    nextLicenseId := 1, nextActivationId := 1 }

/-- C9 witness: one failing call of each kind, each exercised on its own
store.  `activate` throws `License is revoked` on `revokedStore` (where
`deactivate` would succeed) and leaves it unchanged; `deactivate` throws
`Activation not found` on `demoStore` (where `activate` would succeed) and
leaves it unchanged. -/
theorem failed_calls_do_not_mutate_witness :
    (licensingActivate 0 0 revokedStore (B64String.malformed "K") "H1" none none).2
        = revokedStore ∧
    (licensingDeactivate demoStore (B64String.malformed "K") "H1").2 = demoStore :=
  ⟨(failed_calls_do_not_mutate 0 0 revokedStore (B64String.malformed "K") "H1"
      none none).1 "License is revoked" (by decide),
   (failed_calls_do_not_mutate 0 0 demoStore (B64String.malformed "K") "H1"
      none none).2 "Activation not found" (by decide)⟩

/-- A store holding one active license whose stored key is a string that
fails cryptographic validation (as every key issued through
`generateLicenseKey` in fact does, since `formatLicenseKey` truncates the
encoding). -/
def malformedKeyStore : Store :=
  { licenses := [{ id := 0, licenseKey := B64String.malformed "AAAAA-BBBBB",
                   email := "a@example.com", purchaseId := none,
                   maxActivations := 1, currentActivations := 0,
                   expiresAt := none, status := LicenseStatus.active }],
    activations := [], nextLicenseId := 1, nextActivationId := 0 }

/-- C2 counterexample: a key string on which `validateLicenseKey` returns a
`ValidationError` (`Invalid license key format`) is nevertheless accepted
by `licensing.activate` — the handler never invokes validation, it goes
straight to the store lookup. -/
theorem activate_accepts_invalid_key :
    (validateLicenseKey 0 0 (B64String.malformed "AAAAA-BBBBB")).valid = false ∧
    (validateLicenseKey 0 0 (B64String.malformed "AAAAA-BBBBB")).error
      = some "Invalid license key format" ∧
    (licensingActivate 0 0 malformedKeyStore (B64String.malformed "AAAAA-BBBBB")
        "H1" none none).1
      = ActivateResult.success false
          (some (createActivationToken 0 0 (B64String.malformed "AAAAA-BBBBB") "H1")) := by
  decide

/-- C2 (amended): `licensing.activate` performs no cryptographic validation
of the supplied key string; its outcome is determined solely by the store.
In particular a key on which `validateLicenseKey` returns any
`ValidationError` still activates successfully whenever the store holds a
matching active license with free capacity and no existing activation for
the hardware id. -/
theorem activate_never_validates (keyId : Nat) (now : Int) (s : Store)
    (k : B64String) (hw : String) (mn os : Option String) (lic : License)
    (_hinvalid : (validateLicenseKey keyId now k).valid = false)
    (hfind : getLicenseByKey s k = some lic)
    (hst : lic.status = LicenseStatus.active)
    (hexist : getActivationByHardwareId s lic.id hw = none)
    (hcap : lic.currentActivations < lic.maxActivations) :
    (licensingActivate keyId now s k hw mn os).1
      = ActivateResult.success false (some (createActivationToken keyId now k hw)) := by
  unfold licensingActivate
  simp [hfind, hst, hexist, not_le.mpr hcap]

/-- C2 witness: the amended theorem applied at the concrete store. -/
theorem activate_never_validates_witness :
    (licensingActivate 0 0 malformedKeyStore (B64String.malformed "AAAAA-BBBBB")
        "H2" none none).1
      = ActivateResult.success false
          (some (createActivationToken 0 0 (B64String.malformed "AAAAA-BBBBB") "H2")) :=
  activate_never_validates 0 0 malformedKeyStore (B64String.malformed "AAAAA-BBBBB")
    "H2" none none
    { id := 0, licenseKey := B64String.malformed "AAAAA-BBBBB",
      email := "a@example.com", purchaseId := none, maxActivations := 1,
      currentActivations := 0, expiresAt := none, status := LicenseStatus.active }
    (by decide) (by decide) (by decide) (by decide) (by decide)

/-! ## C1: the display formatting destroys the encoding -/

/-- The chunks of `chunks5Go` carry exactly the characters of the input,
whenever the fuel covers the input length. -/
theorem chunks5Go_length_sum : ∀ (fuel : Nat) (l : List Char), l.length ≤ fuel →
    ((chunks5Go fuel l).map List.length).sum = l.length := by
  intro fuel
  induction fuel with
  | zero =>
    intro l hl
    cases l with
    | nil => simp [chunks5Go]
    | cons c cs => simp at hl
  | succ fuel ih =>
    intro l hl
    cases l with
    | nil => simp [chunks5Go]
    | cons c cs =>
      simp only [chunks5Go, List.map_cons, List.sum_cons]
      rw [ih ((c :: cs).drop 5)
        (by simp only [List.length_drop, List.length_cons] at hl ⊢; omega)]
      simp only [List.length_take, List.length_drop, List.length_cons]
      omega

/-- The chunks of `chunks5` carry exactly the characters of the input. -/
theorem chunks5_length_sum (l : List Char) :
    ((chunks5 l).map List.length).sum = l.length :=
  chunks5Go_length_sum l.length l (le_refl _)

/-- Stripping the inserted dashes from a dash-join recovers at most the
characters of the chunks. -/
theorem joinDash_filter_le (ps : List (List Char)) :
    ((joinDash ps).filter fun c => c != '-').length ≤ (ps.map List.length).sum := by
  induction ps with
  | nil => simp [joinDash]
  | cons p ps ih =>
    cases ps with
    | nil =>
      simp only [joinDash, List.map_cons, List.map_nil, List.sum_cons, List.sum_nil]
      have := List.length_filter_le (fun c => c != '-') p
      omega
    | cons q qs =>
      have hj : joinDash (p :: q :: qs) = p ++ '-' :: joinDash (q :: qs) := rfl
      rw [hj, List.filter_append, List.filter_cons]
      simp only [bne_self_eq_false, Bool.false_eq_true, if_false, List.length_append]
      have h1 := List.length_filter_le (fun c => c != '-') p
      have h2 := ih
      simp only [List.map_cons, List.sum_cons] at h2
      simp only [List.map_cons, List.sum_cons]
      omega

/-- Every formatted key, dashes stripped, has at most 20 characters: all
information beyond the first 20 base64 characters of the encoding is gone. -/
theorem stripDashes_formatLicenseKey_le (key : String) :
    (stripDashes (formatLicenseKey key)).length ≤ 20 := by
  show ((joinDash (chunks5 ((keepAlnumUpper key.toList).take 20))).filter
      fun c => c != '-').length ≤ 20
  refine le_trans (joinDash_filter_le _) ?_
  rw [chunks5_length_sum]
  simp only [List.length_take]
  omega

/-- A realistic issued-key encoding: base64 of
`{"payload": b64(payload JSON), "signature": b64(256-byte RSA-2048 signature)}`
for the payload
`{"email":"a@example.com","maxActivations":1,"expiresAt":null,"issuedAt":1700000000000,"nonce":"aabb...8899"}`. -/
def issuedKeyBase64 : String :=
  "eyJwYXlsb2FkIjoiZXlKbGJXRnBiQ0k2SW1GQVpYaGhiWEJzWlM1amIyMGlMQ0p0WVhoQlkzUnBkbUYwYVc5dWN5STZNU3dpWlhod2FYSmxjMEYwSWpwdWRXeHNMQ0pwYzNOMVpXUkJkQ0k2TVRjd01EQXdNREF3TURBd01Dd2libTl1WTJVaU9pSmhZV0ppWTJOa1pHVmxabVl3TURFeE1qSXpNelEwTlRVMk5qYzNPRGc1T1NKOSIsInNpZ25hdHVyZSI6InBVM0tHQ1V3dXgxdEV5emUxaU43THRrZVAzSWZ5eGx4RjBTVTFrazhuVncwWUw0eElCNXAvdHFnN3VpNW1YOWNmQ21aL2EvbGt5VTgxbFN2VGZyWEZDZWdyclArNlNNdml2SWhINTdra2NXeEMreTFWanY4SG0rVFFuN0x5UDRwVmVYTmprYmNqdFMzd25aTktscE5kbmNHK0YyR2tBSksxcjJqUUJ2cHlNdk15VFgyelI5aEltcmhVeml1R2pRQVRUTzZEU1Jxd0V5QnNicnlQanY1N3ZYM255dEpOSytIOVZJTGFibExEWmd1aGJ0VnRuS29jbU42elhSbS9MWU9Eby94aEdPdzVMSzZLWEEwZFBCa3JHajNBUFd3S3ozR1p2UmIzcW9zeXUzTksxRlhRUTVON2tyeXMwOURDZ2MwUjk1amJBNkFiSlY3cG9UV1F4KzE2Zz09In0="

set_option maxRecDepth 8000 in
/-- C1: the dash-grouped formatting applied by the issuer is NOT reversible.
`formatLicenseKey` keeps only the first 20 uppercased alphanumeric
characters of the 728-character encoding, so stripping dashes from the
issued key string does not recover the encoding of `{payload, signature}`
(and `validateLicenseKey` therefore reports `Invalid license key format`
on every key `generateLicenseKey` returns). -/
theorem formatLicenseKey_not_reversible :
    (∀ key : String, (stripDashes (formatLicenseKey key)).length ≤ 20) ∧
    formatLicenseKey issuedKeyBase64 = "EYJWY-XLSB2-FKIJO-IZXLK" ∧
    stripDashes (formatLicenseKey issuedKeyBase64) = "EYJWYXLSB2FKIJOIZXLK" ∧
    stripDashes (formatLicenseKey issuedKeyBase64) ≠ issuedKeyBase64 ∧
    issuedKeyBase64.length = 728 :=
  ⟨stripDashes_formatLicenseKey_le, by decide, by decide, by decide, by decide⟩

/-! ## C6: idempotent re-activation -/

/-- Activation lookup after a heartbeat update: the same row is found, with
its `lastSeenAt` refreshed when its id matches. -/
theorem getActivationByHardwareId_updateLastSeen (s : Store) (aid : Nat)
    (now : Int) (i : Nat) (h : String) :
    getActivationByHardwareId (updateLastSeen s aid now) i h
      = (getActivationByHardwareId s i h).map fun a =>
          if a.id == aid then { a with lastSeenAt := now } else a := by
  unfold getActivationByHardwareId updateLastSeen
  rw [List.find?_map]
  have hp : (isActivePair i h ∘ fun a =>
        if a.id == aid then { a with lastSeenAt := now } else a)
      = isActivePair i h := by
    funext a
    by_cases hc : a.id = aid <;> simp [Function.comp, isActivePair, hc]
  rw [hp]

/-- If no active activation exists for a pair, its active count is zero. -/
theorem pairActiveCount_eq_zero_of_none (s : Store) (i : Nat) (h : String)
    (hnone : getActivationByHardwareId s i h = none) :
    pairActiveCount s i h = 0 := by
  unfold getActivationByHardwareId at hnone
  unfold pairActiveCount
  exact List.countP_eq_zero.mpr (List.find?_eq_none.mp hnone)

/-- C6: activating the same `(license, hardwareId)` pair twice in sequence
is idempotent.  If the first call succeeds (either a fresh activation or
`alreadyActivated`), the second call also succeeds with
`alreadyActivated = true`, leaves the `licenses` table — in particular
`currentActivations` — untouched, and at every stage there is at most one
`active` activation record per pair. -/
theorem reactivation_idempotent (keyId : Nat) (now now2 : Int) (s : Store)
    (k : B64String) (hw : String) (mn os mn2 os2 : Option String)
    (b : Bool) (tok : Option B64String) (s1 : Store)
    (hpair : PairInv s)
    (hfirst : licensingActivate keyId now s k hw mn os
        = (ActivateResult.success b tok, s1)) :
    (licensingActivate keyId now2 s1 k hw mn2 os2).1
        = ActivateResult.success true none ∧
    (licensingActivate keyId now2 s1 k hw mn2 os2).2.licenses = s1.licenses ∧
    PairInv s1 ∧
    PairInv (licensingActivate keyId now2 s1 k hw mn2 os2).2 := by
  unfold licensingActivate at hfirst
  cases hfind : getLicenseByKey s k with
  | none =>
    rw [hfind] at hfirst
    simp at hfirst
  | some lic =>
    rw [hfind] at hfirst
    by_cases hst : (lic.status != LicenseStatus.active) = true
    · simp [hst] at hfirst
    · simp only [hst, Bool.false_eq_true, if_false] at hfirst
      have hstatus : lic.status = LicenseStatus.active := by
        by_cases hq : lic.status = LicenseStatus.active
        · exact hq
        · exact absurd (by simpa using hq) hst
      cases hexist : getActivationByHardwareId s lic.id hw with
      | some act =>
        rw [hexist] at hfirst
        have hs1 : s1 = updateLastSeen s act.id now :=
          ((Prod.mk.injEq _ _ _ _).mp hfirst).2.symm
        have glk : getLicenseByKey s1 k = some lic := by rw [hs1]; exact hfind
        have gact : getActivationByHardwareId s1 lic.id hw
            = some (if act.id == act.id then { act with lastSeenAt := now } else act) := by
          rw [hs1, getActivationByHardwareId_updateLastSeen, hexist]
          rfl
        have hpair1 : PairInv s1 := by
          intro i h
          rw [hs1, pairActiveCount_updateLastSeen]
          exact hpair i h
        refine ⟨?_, ?_, hpair1, ?_⟩
        · simp only [licensingActivate, glk, hstatus, bne_self_eq_false,
            Bool.false_eq_true, if_false, gact]
        · simp only [licensingActivate, glk, hstatus, bne_self_eq_false,
            Bool.false_eq_true, if_false, gact, updateLastSeen]
        · intro i h
          simp only [licensingActivate, glk, hstatus, bne_self_eq_false,
            Bool.false_eq_true, if_false, gact]
          rw [pairActiveCount_updateLastSeen]
          exact hpair1 i h
      | none =>
        rw [hexist] at hfirst
        by_cases hcap : lic.currentActivations ≥ lic.maxActivations
        · simp [hcap] at hfirst
        · simp only [if_neg hcap, ge_iff_le, not_le] at hfirst
          have hs1 : s1 = incrementActivationCount
              (createActivation s lic.id hw mn os ActivationStatus.active now) lic.id :=
            ((Prod.mk.injEq _ _ _ _).mp hfirst).2.symm
          have glk : getLicenseByKey s1 k
              = some { lic with currentActivations := lic.currentActivations + 1 } := by
            rw [hs1, getLicenseByKey_increment, getLicenseByKey_createActivation, hfind]
            simp
          have hacts : s1.activations = s.activations ++
              [{ id := s.nextActivationId, licenseId := lic.id, hardwareId := hw,
                 machineName := mn, os := os, status := ActivationStatus.active,
                 activatedAt := now, lastSeenAt := now }] := by
            rw [hs1]
            rfl
          have gact : getActivationByHardwareId s1 lic.id hw
              = some { id := s.nextActivationId, licenseId := lic.id, hardwareId := hw,
                       machineName := mn, os := os, status := ActivationStatus.active,
                       activatedAt := now, lastSeenAt := now } := by
            unfold getActivationByHardwareId
            rw [hacts, List.find?_append]
            unfold getActivationByHardwareId at hexist
            rw [hexist]
            simp [isActivePair]
          have hpair1 : PairInv s1 := by
            intro i h
            have : pairActiveCount s1 i h
                = pairActiveCount s i h
                  + (if lic.id == i && hw == h && ActivationStatus.active == ActivationStatus.active
                     then 1 else 0) := by
              rw [hs1, pairActiveCount_increment, pairActiveCount_createActivation]
            rw [this]
            by_cases hih : lic.id = i ∧ hw = h
            · rcases hih with ⟨rfl, rfl⟩
              rw [pairActiveCount_eq_zero_of_none s lic.id hw hexist]
              simp
            · have : (lic.id == i && hw == h && ActivationStatus.active == ActivationStatus.active)
                  = false := by
                rcases not_and_or.mp hih with hne | hne <;> simp [hne]
              rw [this]
              simpa using hpair i h
          refine ⟨?_, ?_, hpair1, ?_⟩
          · simp only [licensingActivate, glk, hstatus, bne_self_eq_false,
              Bool.false_eq_true, if_false, gact]
          · simp only [licensingActivate, glk, hstatus, bne_self_eq_false,
              Bool.false_eq_true, if_false, gact, updateLastSeen]
          · intro i h
            simp only [licensingActivate, glk, hstatus, bne_self_eq_false,
              Bool.false_eq_true, if_false, gact]
            rw [pairActiveCount_updateLastSeen]
            exact hpair1 i h

/-- The store after the first activation of hardware `H1` on `demoStore`. -/
def demoStore1 : Store :=
  (licensingActivate 0 0 demoStore (B64String.malformed "K") "H1" none none).2

/-- C6 witness: the idempotence theorem applied after a concrete first
activation. -/
theorem reactivation_idempotent_witness :
    (licensingActivate 0 1 demoStore1 (B64String.malformed "K") "H1" none none).1
        = ActivateResult.success true none ∧
    (licensingActivate 0 1 demoStore1 (B64String.malformed "K") "H1" none none).2.licenses
        = demoStore1.licenses ∧
    PairInv demoStore1 ∧
    PairInv (licensingActivate 0 1 demoStore1 (B64String.malformed "K") "H1" none none).2 :=
  reactivation_idempotent 0 0 1 demoStore (B64String.malformed "K") "H1"
    none none none none false
    (some (createActivationToken 0 0 (B64String.malformed "K") "H1")) demoStore1
    (by intro i h; simp [pairActiveCount, demoStore])
    (by decide)

/-! ## C4: the activation-count invariant is preserved -/

/-- An active row of a license makes its active count positive. -/
theorem countActive_pos (s : Store) (a : Activation) (ha : a ∈ s.activations)
    (i : Nat) (hact : isActiveFor i a = true) : 1 ≤ countActive s i := by
  unfold countActive
  have : 0 < List.countP (isActiveFor i) s.activations :=
    List.countP_pos_iff.mpr ⟨a, ha, hact⟩
  omega

/-- C4: issuance, activation and deactivation all preserve the data-model
invariant `0 ≤ currentActivations ≤ maxActivations` together with
`currentActivations = number of active activation records of the license`
(for issuance, under the data-model constraint that the requested
`maxActivations` is non-negative). -/
theorem operations_preserve_count_invariant (keyId : Nat) (now : Int)
    (s : Store) (generatedKey k : B64String) (email hw : String)
    (mn os purchaseId : Option String) (maxActivations : Int)
    (expiresInDays : Option Int) (hwf : WF s) (hinv : CountInv s) :
    (0 ≤ maxActivations →
      CountInv (licensingGenerate s generatedKey now email maxActivations
        expiresInDays purchaseId).2) ∧
    CountInv (licensingActivate keyId now s k hw mn os).2 ∧
    CountInv (licensingDeactivate s k hw).2 := by
  refine ⟨?_, ?_, ?_⟩
  · -- licensing.generate
    intro hmax lic hmem
    simp only [licensingGenerate, createLicense, List.mem_append,
      List.mem_singleton] at hmem
    have hcnt : ∀ i, countActive
        (licensingGenerate s generatedKey now email maxActivations
          expiresInDays purchaseId).2 i = countActive s i := fun i => rfl
    rcases hmem with hmem | rfl
    · rcases hinv lic hmem with ⟨h0, h1, h2⟩
      exact ⟨h0, h1, by rw [hcnt]; exact h2⟩
    · refine ⟨le_refl 0, hmax, ?_⟩
      rw [hcnt]
      have : countActive s s.nextLicenseId = 0 := by
        unfold countActive
        refine List.countP_eq_zero.mpr fun a ha => ?_
        have := hwf.actLicRef a ha
        simp only [isActiveFor, Bool.and_eq_true, beq_iff_eq]
        rintro ⟨heq, -⟩
        omega
      rw [this]
      rfl
  · -- licensing.activate
    unfold licensingActivate
    cases hfind : getLicenseByKey s k with
    | none => exact hinv
    | some lic =>
      have hmemlic : lic ∈ s.licenses := List.mem_of_find?_eq_some hfind
      by_cases hst : (lic.status != LicenseStatus.active) = true
      · simp only [hst, if_true]
        exact hinv
      · simp only [hst, Bool.false_eq_true, if_false]
        cases hexist : getActivationByHardwareId s lic.id hw with
        | some act =>
          intro lic2 hmem
          have hmem2 : lic2 ∈ s.licenses := hmem
          rcases hinv lic2 hmem2 with ⟨h0, h1, h2⟩
          exact ⟨h0, h1, by rw [countActive_updateLastSeen]; exact h2⟩
        | none =>
          by_cases hcap : lic.currentActivations ≥ lic.maxActivations
          · simp only [hcap, if_true]
            exact hinv
          · simp only [hcap, if_false]
            intro lic2 hmem
            simp only [incrementActivationCount, createActivation,
              List.mem_map] at hmem
            rcases hmem with ⟨y, hy, rfl⟩
            have hcnt : ∀ i, countActive
                (incrementActivationCount
                  (createActivation s lic.id hw mn os ActivationStatus.active now)
                  lic.id) i
                = countActive s i + (if (lic.id == i) = true then 1 else 0) := by
              intro i
              rw [countActive_increment, countActive_createActivation]
              by_cases hi : (lic.id == i) = true <;> simp [hi]
            by_cases hyid : y.id = lic.id
            · have hylic : y = lic :=
                eq_of_key_eq (fun x => x.id) s.licenses hwf.licIds y lic hy hmemlic hyid
              subst hylic
              rcases hinv y hy with ⟨h0, h1, h2⟩
              simp only [hyid, beq_self_eq_true, if_true]
              refine ⟨by omega, by omega, ?_⟩
              have := hcnt y.id
              simp only [incrementActivationCount, createActivation] at this ⊢
              rw [this]
              simp only [beq_self_eq_true, if_true]
              push_cast
              omega
            · have hif : (y.id == lic.id) = false := by simpa using hyid
              rcases hinv y hy with ⟨h0, h1, h2⟩
              simp only [hif, Bool.false_eq_true, if_false]
              refine ⟨h0, h1, ?_⟩
              have := hcnt y.id
              simp only [incrementActivationCount, createActivation] at this ⊢
              rw [this]
              have : (lic.id == y.id) = false := by
                simp only [beq_eq_false_iff_ne, ne_eq]
                exact fun h => hyid h.symm
              rw [this]
              simpa using h2
  · -- licensing.deactivate
    cases hfind : getLicenseByKey s k with
    | none =>
      have heq : licensingDeactivate s k hw = (DeactivateResult.thrown "License not found", s) := by
        unfold licensingDeactivate
        rw [hfind]
      rw [heq]
      exact hinv
    | some lic =>
      have hmemlic : lic ∈ s.licenses := List.mem_of_find?_eq_some hfind
      cases hexist : getActivationByHardwareId s lic.id hw with
      | none =>
        have heq : licensingDeactivate s k hw
            = (DeactivateResult.thrown "Activation not found", s) := by
          unfold licensingDeactivate
          rw [hfind]
          simp [hexist]
        rw [heq]
        exact hinv
      | some act =>
        have heq : licensingDeactivate s k hw
            = (DeactivateResult.success,
               decrementActivationCount (deactivateActivation s act.id) lic.id) := by
          unfold licensingDeactivate
          rw [hfind]
          simp [hexist]
        rw [heq]
        have hmemact : act ∈ s.activations := List.mem_of_find?_eq_some hexist
        have hpred : isActivePair lic.id hw act = true := List.find?_some hexist
        have hlicid : act.licenseId = lic.id := by
          simp only [isActivePair, Bool.and_eq_true, beq_iff_eq] at hpred
          exact hpred.1.1
        have hactfor : isActiveFor lic.id act = true := by
          simp only [isActivePair, Bool.and_eq_true] at hpred
          simp only [isActiveFor, Bool.and_eq_true]
          exact ⟨hpred.1.1, hpred.2⟩
        have hcnt : ∀ i, countActive
            (decrementActivationCount (deactivateActivation s act.id) lic.id) i
              + (if isActiveFor i act = true then 1 else 0)
            = countActive s i := by
          intro i
          rw [countActive_decrement]
          have := countActive_deactivateActivation s act hwf.actIds hmemact i
          rw [isActiveFor_deactivated] at this
          simpa using this
        have hpos : 1 ≤ countActive s lic.id := countActive_pos s act hmemact lic.id hactfor
        intro lic2 hmem
        have hmem2 : lic2 ∈ (deactivateActivation s act.id).licenses.map fun y =>
            if y.id == lic.id then { y with currentActivations := y.currentActivations - 1 }
            else y := hmem
        rw [show (deactivateActivation s act.id).licenses = s.licenses from rfl] at hmem2
        rcases List.mem_map.mp hmem2 with ⟨y, hy, rfl⟩
        rcases hinv y hy with ⟨h0, h1, h2⟩
        by_cases hyid : y.id = lic.id
        · have hylic : y = lic :=
            eq_of_key_eq (fun x => x.id) s.licenses hwf.licIds y lic hy hmemlic hyid
          have hc := hcnt y.id
          rw [if_pos (by rw [hyid]; exact hactfor)] at hc
          have hposy : 1 ≤ countActive s y.id := by rw [hyid]; exact hpos
          simp only [beq_iff_eq, hyid, if_true]
          refine ⟨?_, ?_, ?_⟩
          · show (0 : Int) ≤ y.currentActivations - 1
            rw [h2]
            omega
          · show y.currentActivations - 1 ≤ y.maxActivations
            omega
          · show y.currentActivations - 1
              = ((countActive (decrementActivationCount (deactivateActivation s act.id) lic.id)
                  lic.id : Nat) : Int)
            rw [hyid] at hc h2
            omega
        · have hif : (y.id == lic.id) = false := by simpa using hyid
          simp only [hif, Bool.false_eq_true, if_false]
          refine ⟨h0, h1, ?_⟩
          have hc := hcnt y.id
          have hnot : isActiveFor y.id act = false := by
            simp only [isActiveFor, Bool.and_eq_false_iff]
            left
            simp only [beq_eq_false_iff_ne, ne_eq]
            rw [hlicid]
            exact fun h => hyid h.symm
          rw [hnot] at hc
          simp only [Bool.false_eq_true, if_false, Nat.add_zero] at hc
          rw [hc]
          exact h2

/-- C4 witness: the preservation theorem applied to a concrete well-formed
store, covering issuance, activation and deactivation. -/
theorem operations_preserve_count_invariant_witness :
    CountInv (licensingGenerate demoStore (B64String.malformed "K2") 0
        "b@example.com" 1 none none).2 ∧
    CountInv (licensingActivate 0 0 demoStore (B64String.malformed "K")
        "H1" none none).2 ∧
    CountInv (licensingDeactivate demoStore (B64String.malformed "K") "H1").2 :=
  have h := operations_preserve_count_invariant 0 0 demoStore
    (B64String.malformed "K2") (B64String.malformed "K") "b@example.com" "H1"
    none none none 1 none
    ⟨by decide, by decide, by decide, by decide, by decide⟩
    (by unfold CountInv; decide)
  ⟨h.1 (by decide), h.2.1, h.2.2⟩

/-! ## C3: the check-then-increment is not atomic -/

/-- The write phase of `licensing.activate` (routers.ts lines 375-386):
`createActivation` followed by `incrementActivationCount`, as executed after
the capacity check has passed. -/
def activateWritePhase (s : Store) (licId : Nat) (hw : String) (now : Int) : Store :=
  incrementActivationCount
    (createActivation s licId hw none none ActivationStatus.active now) licId

/-- C3 counterexample: `incrementActivationCount` is an unconditional
`SET currentActivations = currentActivations + 1` with no
`currentActivations < maxActivations` guard, and the capacity check is a
separate read.  Concretely, on `demoStore` (`maxActivations = 1`,
`currentActivations = 0`, no activations) the check phases of two
overlapping `activate` calls for distinct hardware ids `H1`, `H2` both
pass; executing both write phases then leaves
`currentActivations = 2 > maxActivations = 1` — the claimed guarded
atomic increment would have stopped at 1. -/
theorem capacity_check_not_atomic :
    ((getLicenseByKey demoStore (B64String.malformed "K")).map
        (fun l => decide (l.currentActivations < l.maxActivations)) = some true) ∧
    getActivationByHardwareId demoStore 0 "H1" = none ∧
    getActivationByHardwareId demoStore 0 "H2" = none ∧
    ((getLicenseByKey
        (activateWritePhase (activateWritePhase demoStore 0 "H1" 0) 0 "H2" 0)
        (B64String.malformed "K")).map
        (fun l => (l.currentActivations, l.maxActivations)) = some (2, 1)) := by
  decide

/-- Result classifiers for sequential activation runs. -/
def isSuccess : ActivateResult → Bool
  | .success _ _ => true
  | .thrown _ => false

def isCapacityRejection : ActivateResult → Bool
  | .thrown msg => msg == "Maximum activations reached"
  | .success _ _ => false

/-- Fire `licensing.activate` sequentially for a list of hardware ids. -/
def runActivates (keyId : Nat) (now : Int) (k : B64String) :
    Store → List String → List ActivateResult × Store
  | s, [] => ([], s)
  | s, hw :: rest =>
    let r := licensingActivate keyId now s k hw none none
    let rs := runActivates keyId now k r.2 rest
    (r.1 :: rs.1, rs.2)

/-- The store shape maintained while serving sequential activations of a
single license: the license row with its running counter, plus the activation
rows created so far. -/
def runStore (lic : License) (c : Nat) (acts : List Activation) (nextAid : Nat) : Store :=
  { licenses := [{ lic with currentActivations := (c : Int) }],
    activations := acts, nextLicenseId := lic.id + 1, nextActivationId := nextAid }

/-- License lookup on a `runStore`. -/
theorem getLicenseByKey_runStore (lic : License) (c : Nat)
    (acts : List Activation) (nextAid : Nat) :
    getLicenseByKey (runStore lic c acts nextAid) lic.licenseKey
      = some { lic with currentActivations := (c : Int) } :=
  List.find?_cons_of_pos _ (by simp)

/-- One `activate` call on a `runStore` holding an active license with
capacity `N`: below capacity it creates the activation and bumps the
counter, at capacity it throws `Maximum activations reached`. -/
theorem activate_runStore_step (keyId : Nat) (now : Int) (lic : License)
    (N : Nat) (hstatus : lic.status = LicenseStatus.active)
    (hmax : lic.maxActivations = (N : Int))
    (c : Nat) (acts : List Activation) (nextAid : Nat) (hw : String)
    (hacts : ∀ a ∈ acts, ¬ isActivePair lic.id hw a = true) :
    licensingActivate keyId now (runStore lic c acts nextAid) lic.licenseKey hw none none
      = if c < N then
          (ActivateResult.success false
            (some (createActivationToken keyId now lic.licenseKey hw)),
           runStore lic (c + 1)
             (acts ++ [{ id := nextAid, licenseId := lic.id, hardwareId := hw,
                         machineName := none, os := none,
                         status := ActivationStatus.active,
                         activatedAt := now, lastSeenAt := now }])
             (nextAid + 1))
        else
          (ActivateResult.thrown "Maximum activations reached",
           runStore lic c acts nextAid) := by
  have hg := getLicenseByKey_runStore lic c acts nextAid
  have hact : getActivationByHardwareId (runStore lic c acts nextAid) lic.id hw = none :=
    List.find?_eq_none.mpr hacts
  unfold licensingActivate
  rw [hg]
  simp only [hstatus, bne_self_eq_false, Bool.false_eq_true, if_false, hact, hmax]
  by_cases hc : c < N
  · have hlt : ¬ ((c : Int) ≥ (N : Int)) := by exact_mod_cast not_le.mpr hc
    rw [if_pos hc, if_neg hlt]
    have hcast : ((c + 1 : Nat) : Int) = (c : Int) + 1 := by push_cast; ring
    simp only [runStore, incrementActivationCount, createActivation, List.map_cons,
      List.map_nil, beq_self_eq_true, if_true, hcast]
  · have hge : ((c : Int) ≥ (N : Int)) := by exact_mod_cast not_lt.mp hc
    rw [if_neg hc, if_pos hge]

/-- Sequential activation runs on a single active license with capacity `N`:
with `c` seats already taken and only fresh hardware ids remaining, the run
yields `min #ids (N - c)` successes and `#ids - (N - c)` capacity
rejections, and the counter ends at `min (c + #ids) N`. -/
theorem runActivates_spec (keyId : Nat) (now : Int) (lic : License) (N : Nat)
    (hstatus : lic.status = LicenseStatus.active)
    (hmax : lic.maxActivations = (N : Int)) :
    ∀ (hws : List String) (acts : List Activation) (c : Nat)
      (done : List String) (nextAid : Nat),
      (∀ a ∈ acts, a.hardwareId ∈ done) →
      (∀ h ∈ hws, h ∉ done) →
      hws.Nodup → c ≤ N →
      ((runActivates keyId now lic.licenseKey
          (runStore lic c acts nextAid) hws).1.countP isSuccess
        = min hws.length (N - c)) ∧
      ((runActivates keyId now lic.licenseKey
          (runStore lic c acts nextAid) hws).1.countP isCapacityRejection
        = hws.length - (N - c)) ∧
      ∀ lic2 ∈ (runActivates keyId now lic.licenseKey
          (runStore lic c acts nextAid) hws).2.licenses,
        lic2.currentActivations = ((min (c + hws.length) N : Nat) : Int) := by
  intro hws
  induction hws with
  | nil =>
    intro acts c done nextAid hacts hfresh hnodup hcN
    refine ⟨by simp [runActivates], by simp [runActivates], ?_⟩
    intro lic2 hmem
    simp only [runActivates, runStore, List.mem_singleton] at hmem
    subst hmem
    simp only [List.length_nil, Nat.add_zero]
    rw [min_eq_left hcN]
  | cons hw rest ih =>
    intro acts c done nextAid hacts hfresh hnodup hcN
    have hnohw : ∀ a ∈ acts, ¬ isActivePair lic.id hw a = true := by
      intro a ha hpa
      have hhw : a.hardwareId = hw := by
        simp only [isActivePair, Bool.and_eq_true, beq_iff_eq] at hpa
        exact hpa.1.2
      exact hfresh hw (List.mem_cons_self hw rest) (hhw ▸ hacts a ha)
    have hstep := activate_runStore_step keyId now lic N hstatus hmax c acts
      nextAid hw hnohw
    by_cases hc : c < N
    · rw [if_pos hc] at hstep
      have hih := ih
        (acts ++ [{ id := nextAid, licenseId := lic.id, hardwareId := hw,
                    machineName := none, os := none,
                    status := ActivationStatus.active,
                    activatedAt := now, lastSeenAt := now }])
        (c + 1) (hw :: done) (nextAid + 1)
        (by
          intro a ha
          rcases List.mem_append.mp ha with ha2 | ha2
          · exact List.mem_cons_of_mem hw (hacts a ha2)
          · rw [List.mem_singleton.mp ha2]
            exact List.mem_cons_self hw done)
        (by
          intro h hh
          rcases List.nodup_cons.mp hnodup with ⟨hhw2, -⟩
          intro hmem
          rcases List.mem_cons.mp hmem with rfl | hmem2
          · exact hhw2 hh
          · exact hfresh h (List.mem_cons_of_mem hw hh) hmem2)
        (List.nodup_cons.mp hnodup).2
        (by omega)
      rcases hih with ⟨hsucc, hcapc, hcur⟩
      refine ⟨?_, ?_, ?_⟩
      · simp only [runActivates, hstep, List.countP_cons, hsucc, isSuccess,
          List.length_cons]
        simp
        omega
      · simp only [runActivates, hstep, List.countP_cons, hcapc,
          isCapacityRejection, List.length_cons]
        simp
        omega
      · intro lic2 hmem
        simp only [runActivates, hstep] at hmem
        rw [hcur lic2 hmem]
        congr 1
        simp only [List.length_cons]
        omega
    · rw [if_neg hc] at hstep
      have hih := ih acts c done nextAid hacts
        (fun h hh => hfresh h (List.mem_cons_of_mem hw hh))
        (List.nodup_cons.mp hnodup).2 hcN
      rcases hih with ⟨hsucc, hcapc, hcur⟩
      refine ⟨?_, ?_, ?_⟩
      · simp only [runActivates, hstep, List.countP_cons, hsucc, isSuccess,
          List.length_cons]
        simp
        omega
      · simp only [runActivates, hstep, List.countP_cons, hcapc,
          isCapacityRejection, List.length_cons]
        simp
        omega
      · intro lic2 hmem
        simp only [runActivates, hstep] at hmem
        rw [hcur lic2 hmem]
        congr 1
        simp only [List.length_cons]
        omega

/-- C3 (amended): the capacity check and the increment are separate store
operations — `incrementActivationCount` is an unconditional increment with
no guard — so the check-then-increment is atomic only per sequential call,
not across interleaved calls (see the counterexample).  Under sequential
execution, a license issued with `maxActivations = N` served `N + K`
activate calls for distinct hardware ids yields exactly `N` successes and
`K` `Maximum activations reached` rejections, with
`currentActivations = N` afterward. -/
theorem sequential_capacity_invariant (keyId : Nat) (now : Int) (lic : License)
    (N K : Nat) (hws : List String)
    (hstatus : lic.status = LicenseStatus.active)
    (hmax : lic.maxActivations = (N : Int))
    (hnodup : hws.Nodup) (hlen : hws.length = N + K) :
    ((runActivates keyId now lic.licenseKey (runStore lic 0 [] 0) hws).1.countP
        isSuccess = N) ∧
    ((runActivates keyId now lic.licenseKey (runStore lic 0 [] 0) hws).1.countP
        isCapacityRejection = K) ∧
    ∀ lic2 ∈ (runActivates keyId now lic.licenseKey (runStore lic 0 [] 0) hws).2.licenses,
      lic2.currentActivations = (N : Int) := by
  have h := runActivates_spec keyId now lic N hstatus hmax hws [] 0 [] 0
    (fun a ha => absurd ha (List.not_mem_nil a))
    (fun h2 _ hmem => (List.not_mem_nil h2) hmem)
    hnodup (Nat.zero_le N)
  rcases h with ⟨h1, h2, h3⟩
  refine ⟨?_, ?_, ?_⟩
  · rw [h1, hlen]
    omega
  · rw [h2, hlen]
    omega
  · intro lic2 hmem
    rw [h3 lic2 hmem]
    have : min (0 + hws.length) N = N := by rw [hlen]; omega
    rw [this]

/-- The single-seat license of `demoStore`, as a standalone row. -/
def demoLicense : License :=
  { id := 0, licenseKey := B64String.malformed "K", email := "a@example.com",
    purchaseId := none, maxActivations := 1, currentActivations := 0,
    expiresAt := none, status := LicenseStatus.active }

/-- C3 witness: the sequential theorem at `N = 1`, `K = 1`,
hardware ids `H1`, `H2`. -/
theorem sequential_capacity_invariant_witness :
    ((runActivates 0 0 demoLicense.licenseKey (runStore demoLicense 0 [] 0)
        ["H1", "H2"]).1.countP isSuccess = 1) ∧
    ((runActivates 0 0 demoLicense.licenseKey (runStore demoLicense 0 [] 0)
        ["H1", "H2"]).1.countP isCapacityRejection = 1) ∧
    ∀ lic2 ∈ (runActivates 0 0 demoLicense.licenseKey (runStore demoLicense 0 [] 0)
        ["H1", "H2"]).2.licenses,
      lic2.currentActivations = ((1 : Nat) : Int) :=
  sequential_capacity_invariant 0 0 demoLicense 1 1 ["H1", "H2"]
    (by decide) (by decide) (by decide) (by decide)

end AiGuidePro
